import Mathlib

/-!
Verification of the session-health core of `clawdscan.py`: the record
decoder and session-statistics accumulator (`analyze_session`, lines
78-191), the health classifier (`classify_session`, lines 194-238), the
per-agent issue ranking (`cmd_scan` line 378 over `scan_sessions` lines
315-324), the disk-usage percentiles (`cmd_disk` lines 794-799) and the
trend growth rates (`cmd_history` lines 915-956).

Instants (Python `datetime` values) are modelled as `Int` seconds since
the epoch; a Python `timedelta(hours=h)` comparison becomes a comparison
against `h * 3600` seconds.
-/

/-- Instant in UTC, seconds since the epoch.  Models a Python `datetime`. -/
abbrev Time := Int

/-- Threshold `BLOAT_SIZE_BYTES = 1 * 1024 * 1024` (line 43). -/
def BLOAT_SIZE_BYTES : Nat := 1 * 1024 * 1024

/-- Threshold `BLOAT_MSG_COUNT = 300` (line 44). -/
def BLOAT_MSG_COUNT : Nat := 300

/-- Threshold `STALE_DAYS = 7` (line 45). -/
def STALE_DAYS : Nat := 7

/-- Threshold `ZOMBIE_HOURS = 48` (line 46). -/
def ZOMBIE_HOURS : Nat := 48

/-- Outcome of reading the optional `"timestamp"` field of one JSON entry:
the field can be missing (or JSON `null`), present but not in
ISO-8601-with-`Z`-or-offset form (so `datetime.fromisoformat` raises), or
present and parseable to an instant. -/
inductive TsField where
  | absent
  | invalid
  | valid (t : Time)
  deriving DecidableEq

/-- Timestamp resolution of lines 116-122: `ts = None` unless the string
is present and `datetime.fromisoformat` succeeds; a `ValueError` is
swallowed and leaves `ts = None`. -/
def tsOf : TsField → Option Time
  | .valid t => some t
  | _ => none

/-- One element of an assistant message's `"content"` list: either a dict
with `"type": "tool_use"` carrying an optional `"name"` (missing name
defaults to `"unknown"`, line 151), or anything else (ignored). -/
inductive Block where
  | toolUse (name : Option String)
  | other
  deriving DecidableEq

/-- The `"message"` object of a `message` entry: `role = msg.get("role", "")`
(line 139), `content = msg.get("content", [])` (line 145; a non-list
content contributes nothing and is conflated with `[]`), and the
`"toolName"` field read for `toolResult` messages (line 156). -/
structure Msg where
  role : String := ""
  content : List Block := []
  toolName : Option String := none
  deriving DecidableEq

/-- One successfully `json.loads`-decoded line, restricted to the fields
`analyze_session` reads.  `none` models a missing (or JSON-null) key.
`dataModelId` is `entry.get("data", {}).get("modelId")` (line 174). -/
structure Entry where
  type : Option String := none
  timestamp : TsField := .absent
  id : Option String := none
  cwd : Option String := none
  label : Option String := none
  name : Option String := none
  message : Option Msg := none
  customType : Option String := none
  dataModelId : Option String := none
  modelId : Option String := none
  model : Option String := none
  deriving DecidableEq

/-- One raw line of a session file together with the outcome of Python's
`json.loads` on it: `blank` is a line whose `strip()` is empty (lines
106-108), `invalid` is a non-blank line raising `JSONDecodeError`
(lines 109-113), `entry e` is a line parsed to the JSON object `e`. -/
inductive LineContent where
  | blank
  | invalid
  | entry (e : Entry)
  deriving DecidableEq

/-- Result of decoding one line: skipped (blank), a decode failure
(counted by the caller as one parse error), or a decoded event. -/
inductive DecodeRes where
  | skipped
  | failure
  | event (e : Entry)
  deriving DecidableEq

/-- Record decoder of lines 105-113: blank lines are skipped, lines that
fail `json.loads` are failures, every parsed object is an event (an
unrecognised `"type"` is still an event, handled as unknown later). -/
def decodeLine : LineContent → DecodeRes
  | .blank => .skipped
  | .invalid => .failure
  | .entry e => .event e

/-- Session statistics aggregate, mirroring the `stats` dict initialised
at lines 80-101.  `mtime` is not optional: line 85 always sets it from
the file's stat.  The Python `set` `models_used` and the two `Counter`s
are modelled as insertion-ordered lists. -/
structure Stats where
  path : String
  sessionId : String
  sizeBytes : Nat
  mtime : Time
  messages : Nat := 0
  userMessages : Nat := 0
  assistantMessages : Nat := 0
  toolCalls : Nat := 0
  compactions : Nat := 0
  modelChanges : Nat := 0
  modelsUsed : List String := []
  toolsUsed : List (String × Nat) := []
  firstTimestamp : Option Time := none
  lastTimestamp : Option Time := none
  created : Option Time := none
  label : Option String := none
  cwd : Option String := none
  errors : Nat := 0
  customTypes : List (String × Nat) := []
  deriving DecidableEq

/-- Initial statistics (lines 80-101); `sessionId` stands for the
file-stem default of line 83 and `sizeBytes`, `mtime` for the stat
calls of lines 84-85. -/
def initStats (path sessionId : String) (sizeBytes : Nat) (mtime : Time) : Stats :=
  { path := path, sessionId := sessionId, sizeBytes := sizeBytes, mtime := mtime }

/-- Counter increment `c[name] += 1`: a missing key is created with count
1 and appended (Python dicts preserve insertion order). -/
def cntIncr (c : List (String × Nat)) (k : String) : List (String × Nat) :=
  if c.any (fun p => p.1 = k) then
    c.map (fun p => if p.1 = k then (p.1, p.2 + 1) else p)
  else
    c ++ [(k, 1)]

/-- Set insertion `s.add(k)` on the list model of a Python set. -/
def setAdd (s : List String) (k : String) : List String :=
  if k ∈ s then s else s ++ [k]

/-- Python `a or b` on two optional strings: the empty string is falsy,
so it also falls through to `b` (used at lines 133 and 164). -/
def pyOrStr (a b : Option String) : Option String :=
  match a with
  | none => b
  | some s => if s = "" then b else some s

/-- Python `a or b` on two optional instants: a `datetime` is always
truthy, so this is plain option fallback (used at lines 211 and 221). -/
def pyOrTime (a b : Option Time) : Option Time :=
  match a with
  | some t => some t
  | none => b

/-- First/last-seen bookkeeping of lines 124-128, applied to every entry
carrying a parsable timestamp regardless of its kind. -/
def updateTimes (s : Stats) (ts : Option Time) : Stats :=
  match ts with
  | none => s
  | some t =>
    { s with
      firstTimestamp :=
        match s.firstTimestamp with
        | none => some t
        | some f => if t < f then some t else some f
      lastTimestamp :=
        match s.lastTimestamp with
        | none => some t
        | some l => if t > l then some t else some l }

/-- Processing of one assistant content block (lines 147-152): a
`tool_use` dict increments the tool-call counter and the per-tool-name
counter keyed by `block.get("name", "unknown")`. -/
def stepBlock (s : Stats) (b : Block) : Stats :=
  match b with
  | .toolUse name =>
    { s with toolCalls := s.toolCalls + 1,
             toolsUsed := cntIncr s.toolsUsed (name.getD "unknown") }
  | .other => s

/-- Fold of lines 146-152 over the assistant message's content list. -/
def procBlocks (s : Stats) (bs : List Block) : Stats :=
  bs.foldl stepBlock s

/-- Message handling of lines 136-157: the message counter always
increments; the role then dispatches to user / assistant (with content
blocks) / toolResult (which increments the tool counter keyed by
`msg.get("toolName", "unknown")`) / anything else. -/
def applyMessage (s : Stats) (msg : Msg) : Stats :=
  let s := { s with messages := s.messages + 1 }
  if msg.role = "user" then
    { s with userMessages := s.userMessages + 1 }
  else if msg.role = "assistant" then
    procBlocks { s with assistantMessages := s.assistantMessages + 1 } msg.content
  else if msg.role = "toolResult" then
    { s with toolCalls := s.toolCalls + 1,
             toolsUsed := cntIncr s.toolsUsed (msg.toolName.getD "unknown") }
  else
    s

/-- Dispatch on one decoded entry (lines 115-182): timestamp bookkeeping
first, then the `entry.get("type", "unknown")` dispatch.  The `session`
branch overwrites `created` with the (possibly absent) entry timestamp
and the metadata fields; `model_change` and `model-snapshot` guard the
model id with Python truthiness before adding it to the set. -/
def applyEvent (s : Stats) (e : Entry) : Stats :=
  let ts := tsOf e.timestamp
  let s := updateTimes s ts
  let ty := e.type.getD "unknown"
  if ty = "session" then
    { s with created := ts, cwd := e.cwd,
             label := pyOrStr e.label e.name,
             sessionId := e.id.getD s.sessionId }
  else if ty = "message" then
    applyMessage s (e.message.getD {})
  else if ty = "compaction" then
    { s with compactions := s.compactions + 1 }
  else if ty = "model_change" then
    let s := { s with modelChanges := s.modelChanges + 1 }
    match pyOrStr e.modelId e.model with
    | some m => if m = "" then s else { s with modelsUsed := setAdd s.modelsUsed m }
    | none => s
  else if ty = "custom" then
    let ct := e.customType.getD "unknown"
    let s := { s with customTypes := cntIncr s.customTypes ct }
    if ct = "model-snapshot" then
      match e.dataModelId with
      | some m => if m = "" then s else { s with modelsUsed := setAdd s.modelsUsed m }
      | none => s
    else s
  else
    s

/-- One iteration of the per-line loop (lines 105-182): skip blank lines,
count a decode failure as one parse error, fold a decoded event. -/
def stepLine (s : Stats) (l : LineContent) : Stats :=
  match decodeLine l with
  | .skipped => s
  | .failure => { s with errors := s.errors + 1 }
  | .event e => applyEvent s e

/-- Accumulator `analyze_session` (lines 78-191) as a left fold of the
per-line step over the file's lines, starting from the freshly
initialised statistics.  File metadata (path, stem-derived session id,
size, modification instant) is the caller-supplied part of lines 81-85. -/
def analyze_session (path sessionId : String) (sizeBytes : Nat) (mtime : Time)
    (lines : List LineContent) : Stats :=
  lines.foldl stepLine (initStats path sessionId sizeBytes mtime)

/-- Health label vocabulary of `classify_session` (the emoji prefixes of
the source strings are dropped; `healthy` is the single label whose
source string starts with the check mark tested at line 368). -/
inductive Label where
  | megaBloat
  | bloated
  | msgOverflow
  | msgHeavy
  | ancient
  | stale
  | zombie
  | overCompacted
  | compacted
  | parseErrors
  | healthy
  deriving DecidableEq

/-- Size rule (lines 198-202). -/
def size_labels (s : Stats) : List Label :=
  if s.sizeBytes > BLOAT_SIZE_BYTES * 5 then [.megaBloat]
  else if s.sizeBytes > BLOAT_SIZE_BYTES then [.bloated]
  else []

/-- Message-volume rule (lines 204-208). -/
def msg_labels (s : Stats) : List Label :=
  if s.messages > BLOAT_MSG_COUNT * 3 then [.msgOverflow]
  else if s.messages > BLOAT_MSG_COUNT then [.msgHeavy]
  else []

/-- Last-activity fallback of line 211, `stats["last_timestamp"] or
stats["mtime"]`: a `datetime` is always truthy and `mtime` is always
set, so the result is always `some`. -/
def last_activity (s : Stats) : Option Time :=
  pyOrTime s.lastTimestamp (some s.mtime)

/-- Staleness rule (lines 210-217), including the (unreachable) skip
branch guarded by `if last_activity:` at line 212. -/
def stale_labels (s : Stats) (now : Time) : List Label :=
  match last_activity s with
  | none => []
  | some la =>
    let age := now - la
    if age > (STALE_DAYS : Int) * 4 * 86400 then [.ancient]
    else if age > (STALE_DAYS : Int) * 86400 then [.stale]
    else []

/-- Zombie rule (lines 219-223): at most 2 messages, and a resolvable
creation instant (`created` falling back to `first_timestamp`) more than
`ZOMBIE_HOURS` hours before now. -/
def zombie_labels (s : Stats) (now : Time) : List Label :=
  if s.messages ≤ 2 then
    match pyOrTime s.created s.firstTimestamp with
    | some c => if now - c > (ZOMBIE_HOURS : Int) * 3600 then [.zombie] else []
    | none => []
  else []

/-- Compaction rule (lines 225-229). -/
def compaction_labels (s : Stats) : List Label :=
  if s.compactions > 10 then [.overCompacted]
  else if s.compactions > 3 then [.compacted]
  else []

/-- Parse-health rule (lines 231-233). -/
def error_labels (s : Stats) : List Label :=
  if s.errors > 5 then [.parseErrors]
  else []

/-- Labels accumulated by the rule sequence of lines 196-233, before the
healthy default.  The source appends each rule's label to one list in
this exact order, which is the concatenation below. -/
def raw_labels (s : Stats) (now : Time) : List Label :=
  size_labels s ++ msg_labels s ++ stale_labels s now ++ zombie_labels s now
    ++ compaction_labels s ++ error_labels s

/-- Classifier `classify_session` (lines 194-238): the accumulated rule
labels, defaulted to the singleton healthy label when no rule fired
(lines 235-236). -/
def classify_session (s : Stats) (now : Time) : List Label :=
  if raw_labels s now = [] then [Label.healthy] else raw_labels s now

/-- Issue test of line 368: a session has an issue unless every label
starts with the check mark, i.e. unless every label is `healthy`. -/
def has_issue (now : Time) (s : Stats) : Bool :=
  ! (classify_session s now).all (fun l => decide (l = Label.healthy))

/-- Comparison used by the size-descending sorts: `a` may come before `b`
when `b` is not larger.  Python's `sort(key=size, reverse=True)` is a
stable descending sort, which is exactly insertion sort by this
relation. -/
def sizeGe (a b : Stats) : Prop := b.sizeBytes ≤ a.sizeBytes

instance : DecidableRel sizeGe := fun a b => inferInstanceAs (Decidable (b.sizeBytes ≤ a.sizeBytes))

instance : IsTotal Stats sizeGe := ⟨fun a b => Nat.le_total b.sizeBytes a.sizeBytes⟩

instance : IsTrans Stats sizeGe := ⟨fun _ _ _ h1 h2 => Nat.le_trans h2 h1⟩

/-- Session-file ordering returned by `scan_sessions` (line 324): the
directory enumeration, stably sorted by file size descending. -/
def scan_order (files : List Stats) : List Stats :=
  List.insertionSort sizeGe files

/-- Per-agent issue ranking of `cmd_scan`: sessions are visited in
`scan_sessions` order (line 361), the ones with an issue are collected
in that order (lines 368-369), and the issue list is stably re-sorted by
size descending (line 378). -/
def rank_issues (now : Time) (files : List Stats) : List Stats :=
  List.insertionSort sizeGe ((scan_order files).filter (has_issue now))

/-- Ascending size sort `sorted([f.stat().st_size for f in active])` of
line 795. -/
def sorted_sizes (sizes : List Nat) : List Nat :=
  List.insertionSort (fun a b => a ≤ b) sizes

/-- Median of line 796, `sizes[len(sizes) // 2]`. -/
def disk_p50 (sizes : List Nat) : Nat :=
  (sorted_sizes sizes).getD (sizes.length / 2) 0

/-- P90 of line 797, `sizes[int(len(sizes) * 0.9)]`.  The float product
`n * 0.9` truncates to `9 * n / 10` for the list lengths considered in
the theorems below (for `n = 10` Python computes `int(9.000000000000002)
= 9 = 9 * 10 / 10`). -/
def disk_p90 (sizes : List Nat) : Nat :=
  (sorted_sizes sizes).getD (sizes.length * 9 / 10) 0

/-- P99 of line 798, `sizes[int(len(sizes) * 0.99)]`; for `n = 10` Python
computes `int(9.9) = 9 = 99 * 10 / 100`. -/
def disk_p99 (sizes : List Nat) : Nat :=
  (sorted_sizes sizes).getD (sizes.length * 99 / 100) 0

/-- Modelled from the spec: the nearest-rank percentile named by §4.4 and
the percentile test of §8 (not present in the source, which indexes
directly).  Value at 1-based rank `⌈p·N/100⌉` of the ascending-sorted
list, i.e. 0-based index `⌈p·N/100⌉ - 1`. -/
def nearest_rank (p : Nat) (sizes : List Nat) : Nat :=
  (sorted_sizes sizes).getD ((p * sizes.length + 99) / 100 - 1) 0

/-- Week-over-week growth of lines 915-917: `(cur - prev)/prev * 100`,
computed only when the previous bucket is non-empty (reported as no
growth figure, modelled 0, otherwise). -/
noncomputable def week_over_week_growth (prev cur : ℝ) : ℝ :=
  if 0 < prev then (cur - prev) / prev * 100 else 0

/-- Compound weekly growth rate of lines 945-954:
`((last / first) ** (1 / weeks) - 1) * 100` where `weeks` is the number
of buckets, guarded to 0 when the first bucket's value is 0. -/
noncomputable def compound_growth_rate (first last : ℝ) (buckets : ℕ) : ℝ :=
  if 0 < first then ((last / first) ^ ((1 : ℝ) / (buckets : ℝ)) - 1) * 100 else 0

/-! ### Helper lemmas about the classifier rule lists -/

lemma mem_size_labels {s : Stats} {l : Label} (h : l ∈ size_labels s) :
    l = Label.megaBloat ∨ l = Label.bloated := by
  unfold size_labels at h
  split_ifs at h <;> simp_all

lemma mem_msg_labels {s : Stats} {l : Label} (h : l ∈ msg_labels s) :
    l = Label.msgOverflow ∨ l = Label.msgHeavy := by
  unfold msg_labels at h
  split_ifs at h <;> simp_all

lemma mem_stale_labels {s : Stats} {now : Time} {l : Label} (h : l ∈ stale_labels s now) :
    l = Label.ancient ∨ l = Label.stale := by
  unfold stale_labels at h
  rcases hla : last_activity s with _ | la <;> rw [hla] at h
  · simp_all
  · simp only at h
    split_ifs at h <;> simp_all

lemma mem_zombie_labels {s : Stats} {now : Time} {l : Label} (h : l ∈ zombie_labels s now) :
    l = Label.zombie := by
  unfold zombie_labels at h
  split_ifs at h
  · rcases hc : pyOrTime s.created s.firstTimestamp with _ | c <;> rw [hc] at h
    · simp_all
    · simp only at h
      split_ifs at h <;> simp_all
  · simp_all

lemma mem_compaction_labels {s : Stats} {l : Label} (h : l ∈ compaction_labels s) :
    l = Label.overCompacted ∨ l = Label.compacted := by
  unfold compaction_labels at h
  split_ifs at h <;> simp_all

lemma mem_error_labels {s : Stats} {l : Label} (h : l ∈ error_labels s) :
    l = Label.parseErrors := by
  unfold error_labels at h
  split_ifs at h <;> simp_all

lemma healthy_not_mem_raw (s : Stats) (now : Time) : Label.healthy ∉ raw_labels s now := by
  intro h
  unfold raw_labels at h
  simp only [List.mem_append] at h
  rcases h with ((((h | h) | h) | h) | h) | h
  · rcases mem_size_labels h with h | h <;> exact absurd h (by decide)
  · rcases mem_msg_labels h with h | h <;> exact absurd h (by decide)
  · rcases mem_stale_labels h with h | h <;> exact absurd h (by decide)
  · exact absurd (mem_zombie_labels h) (by decide)
  · rcases mem_compaction_labels h with h | h <;> exact absurd h (by decide)
  · exact absurd (mem_error_labels h) (by decide)

lemma zombie_mem_raw (s : Stats) (now : Time) :
    Label.zombie ∈ raw_labels s now ↔ Label.zombie ∈ zombie_labels s now := by
  unfold raw_labels
  simp only [List.mem_append]
  constructor
  · rintro (((((h | h) | h) | h) | h) | h)
    · rcases mem_size_labels h with h | h <;> exact absurd h (by decide)
    · rcases mem_msg_labels h with h | h <;> exact absurd h (by decide)
    · rcases mem_stale_labels h with h | h <;> exact absurd h (by decide)
    · exact h
    · rcases mem_compaction_labels h with h | h <;> exact absurd h (by decide)
    · exact absurd (mem_error_labels h) (by decide)
  · intro h
    exact Or.inl (Or.inl (Or.inr h))

lemma zombie_labels_iff (s : Stats) (now : Time) :
    Label.zombie ∈ zombie_labels s now ↔
      s.messages ≤ 2 ∧ ∃ c, pyOrTime s.created s.firstTimestamp = some c ∧
        now - c > (ZOMBIE_HOURS : Int) * 3600 := by
  unfold zombie_labels
  split_ifs with hm
  · rcases hc : pyOrTime s.created s.firstTimestamp with _ | c
    · simp [hm]
    · simp only
      split_ifs with ht
      · simp [hm, ht]
      · simp only [List.not_mem_nil, false_iff]
        rintro ⟨-, c2, hc2, ht2⟩
        cases hc2
        exact ht ht2
  · simp [hm]

/-- C1: for every session-statistics record, the classifier emits the
zombie label exactly when the message count is at most 2 and the
creation instant (the `created` field, falling back via Python `or` to
the first-seen instant) resolves to some instant more than 48 hours
before `now`; in particular a low-message session whose `created` and
`first_timestamp` are both null is never labeled zombie. -/
theorem zombie_label_characterization (s : Stats) (now : Time) :
    Label.zombie ∈ classify_session s now ↔
      s.messages ≤ 2 ∧ ∃ c, pyOrTime s.created s.firstTimestamp = some c ∧
        now - c > (ZOMBIE_HOURS : Int) * 3600 := by
  unfold classify_session
  split_ifs with hraw
  · rw [← zombie_labels_iff s now, ← zombie_mem_raw s now, hraw]
    simp
  · rw [← zombie_labels_iff s now, ← zombie_mem_raw s now]

/-- C2: the classifier result contains the healthy label exactly when no
rule produced a label; in that case the result is exactly the healthy
singleton, and the result is never the empty list. -/
theorem healthy_label_exclusive (s : Stats) (now : Time) :
    (Label.healthy ∈ classify_session s now ↔ raw_labels s now = []) ∧
    (Label.healthy ∈ classify_session s now → classify_session s now = [Label.healthy]) ∧
    classify_session s now ≠ [] := by
  unfold classify_session
  split_ifs with hraw
  · simp [hraw]
  · refine ⟨⟨fun h => absurd h (healthy_not_mem_raw s now), fun h => absurd h hraw⟩, ?_, hraw⟩
    intro h
    exact absurd h (healthy_not_mem_raw s now)

/-- Witness for C2 at a freshly-initialised empty session and now = 0. -/
theorem healthy_label_exclusive_witness :
    classify_session (initStats "p" "s" 0 0) 0 = [Label.healthy] :=
  (healthy_label_exclusive (initStats "p" "s" 0 0) 0).2.1 (by decide)

/-- C10: the staleness rule's skip branch is unreachable: `mtime` is a
non-optional field of the statistics record, so the last-activity
fallback is always defined and the staleness rule always evaluates the
age comparison against `last_timestamp` defaulted to `mtime`. -/
theorem staleness_always_evaluated (s : Stats) (now : Time) :
    last_activity s = some (s.lastTimestamp.getD s.mtime) ∧
    stale_labels s now =
      (if now - s.lastTimestamp.getD s.mtime > (STALE_DAYS : Int) * 4 * 86400 then [Label.ancient]
       else if now - s.lastTimestamp.getD s.mtime > (STALE_DAYS : Int) * 86400 then [Label.stale]
       else []) := by
  cases h : s.lastTimestamp <;>
    simp [last_activity, pyOrTime, stale_labels, h]

/-! ### Accumulator facts -/

/-- Tool-invocation test on a content block. -/
def isToolUse : Block → Bool
  | .toolUse _ => true
  | .other => false

lemma updateTimes_toolCalls (s : Stats) (ts : Option Time) :
    (updateTimes s ts).toolCalls = s.toolCalls := by
  cases ts <;> rfl

lemma updateTimes_toolsUsed (s : Stats) (ts : Option Time) :
    (updateTimes s ts).toolsUsed = s.toolsUsed := by
  cases ts <;> rfl

lemma procBlocks_toolCalls : ∀ (bs : List Block) (s : Stats),
    (procBlocks s bs).toolCalls = s.toolCalls + bs.countP isToolUse
  | [], s => by simp [procBlocks]
  | b :: bs, s => by
    cases b with
    | toolUse name =>
      have ih := procBlocks_toolCalls bs
        { s with toolCalls := s.toolCalls + 1,
                 toolsUsed := cntIncr s.toolsUsed (name.getD "unknown") }
      simp only [procBlocks, List.foldl_cons, stepBlock] at ih ⊢
      rw [ih, List.countP_cons]
      simp [isToolUse]
      omega
    | other =>
      have ih := procBlocks_toolCalls bs s
      simp only [procBlocks, List.foldl_cons, stepBlock] at ih ⊢
      rw [ih, List.countP_cons]
      simp [isToolUse]

/-- Scenario file of C3: a `session` line with id `"abc"` and no
timestamp, two user messages at `t1` and `t2`, one assistant message at
`t3` with a single tool-invocation block named `"search"`, and one
malformed line. -/
def scenario_lines (t1 t2 t3 : Time) : List LineContent :=
  [ .entry { type := some "session", id := some "abc" },
    .entry { type := some "message", timestamp := .valid t1, message := some { role := "user" } },
    .entry { type := some "message", timestamp := .valid t2, message := some { role := "user" } },
    .entry { type := some "message", timestamp := .valid t3,
             message := some { role := "assistant",
                               content := [Block.toolUse (some "search")] } },
    .invalid ]

/-- C3: accumulating the scenario file yields 3 messages (2 user, 1
assistant), 1 tool call with the per-tool counter at `search = 1`, 1
parse error, first-seen `t1` and last-seen `t3`; and in general every
tool-invocation block of an assistant message and every
toolResult-role message increments the tool-call counter and the
per-tool-name counter. -/
theorem scenario_accumulation_and_tool_counting (path sid : String) (sz : Nat) (mt : Time)
    (t1 t2 t3 : Time) (h12 : t1 < t2) (h23 : t2 < t3) :
    ((analyze_session path sid sz mt (scenario_lines t1 t2 t3)).messages = 3 ∧
     (analyze_session path sid sz mt (scenario_lines t1 t2 t3)).userMessages = 2 ∧
     (analyze_session path sid sz mt (scenario_lines t1 t2 t3)).assistantMessages = 1 ∧
     (analyze_session path sid sz mt (scenario_lines t1 t2 t3)).toolCalls = 1 ∧
     (analyze_session path sid sz mt (scenario_lines t1 t2 t3)).errors = 1 ∧
     (analyze_session path sid sz mt (scenario_lines t1 t2 t3)).firstTimestamp = some t1 ∧
     (analyze_session path sid sz mt (scenario_lines t1 t2 t3)).lastTimestamp = some t3 ∧
     (analyze_session path sid sz mt (scenario_lines t1 t2 t3)).toolsUsed = [("search", 1)]) ∧
    (∀ (s : Stats) (n : Option String),
      stepBlock s (Block.toolUse n) =
        { s with toolCalls := s.toolCalls + 1,
                 toolsUsed := cntIncr s.toolsUsed (n.getD "unknown") }) ∧
    (∀ (s : Stats) (bs : List Block),
      (procBlocks s bs).toolCalls = s.toolCalls + bs.countP isToolUse) ∧
    (∀ (s : Stats) (e : Entry) (msg : Msg),
      e.type = some "message" → e.message = some msg → msg.role = "toolResult" →
        (applyEvent s e).toolCalls = s.toolCalls + 1 ∧
        (applyEvent s e).toolsUsed = cntIncr s.toolsUsed (msg.toolName.getD "unknown")) := by
  refine ⟨?_, fun s n => rfl, fun s bs => procBlocks_toolCalls bs s, ?_⟩
  · have n21 : ¬ (t2 < t1) := not_lt.mpr (le_of_lt h12)
    have n31 : ¬ (t3 < t1) := not_lt.mpr (le_of_lt (lt_trans h12 h23))
    refine ⟨rfl, rfl, rfl, rfl, rfl, ?_, ?_, rfl⟩ <;>
      simp [analyze_session, scenario_lines, stepLine, decodeLine, applyEvent, applyMessage,
        procBlocks, stepBlock, updateTimes, tsOf, initStats, h12, h23, n21, n31,
        lt_trans h12 h23]
  · intro s e msg hty hmsg hrole
    constructor <;>
      simp [applyEvent, applyMessage, hty, hmsg, hrole,
        updateTimes_toolCalls, updateTimes_toolsUsed]

/-- Witness for C3 at concrete metadata and timestamps 100 < 200 < 300. -/
theorem scenario_accumulation_witness :
    (analyze_session "p" "sid" 1000 0 (scenario_lines 100 200 300)).messages = 3 ∧
    (analyze_session "p" "sid" 1000 0 (scenario_lines 100 200 300)).firstTimestamp = some 100 ∧
    (analyze_session "p" "sid" 1000 0 (scenario_lines 100 200 300)).lastTimestamp = some 300 :=
  have h := scenario_accumulation_and_tool_counting "p" "sid" 1000 0 100 200 300
    (by decide) (by decide)
  ⟨h.1.1, h.1.2.2.2.2.2.1, h.1.2.2.2.2.2.2.1⟩

/-- C6: decoding one line is total and deterministic (exactly one
skip-failure-or-event result), a blank line is skipped and leaves the
statistics untouched (not an error), a malformed line is a failure
value, every parsed object decodes to an event, and an entry whose
timestamp field is present but not ISO-8601-parsable still decodes to
an event whose resolved timestamp is null. -/
theorem decode_total_idempotent :
    (∀ l : LineContent, ∃ r, decodeLine l = r ∧ ∀ r2, decodeLine l = r2 → r2 = r) ∧
    decodeLine .blank = .skipped ∧
    (∀ s : Stats, stepLine s .blank = s) ∧
    decodeLine .invalid = .failure ∧
    (∀ e : Entry, decodeLine (.entry e) = .event e) ∧
    (∀ e : Entry, e.timestamp = .invalid →
      decodeLine (.entry e) = .event e ∧ tsOf e.timestamp = none) := by
  refine ⟨fun l => ⟨decodeLine l, rfl, fun r2 h => h.symm⟩, rfl, fun s => rfl, rfl,
    fun e => rfl, ?_⟩
  intro e h
  exact ⟨rfl, by rw [h]; rfl⟩

/-- Concrete entry whose timestamp field is present but malformed. -/
def badTsEntry : Entry := { timestamp := .invalid }

/-- Witness for C6 at a concrete entry with an unparsable timestamp. -/
theorem decode_total_idempotent_witness :
    decodeLine (.entry badTsEntry) = .event badTsEntry ∧ tsOf badTsEntry.timestamp = none :=
  decode_total_idempotent.2.2.2.2.2 badTsEntry rfl

/-- Counterexample to C7: the statistics of an empty file whose
modification instant lies 8 days before now classify as stale, not
healthy — the staleness rule does fire on empty files via the mtime
fallback. -/
theorem empty_file_stale_when_old :
    analyze_session "p" "s" 0 0 [] = initStats "p" "s" 0 0 ∧
    classify_session (analyze_session "p" "s" 0 0 []) 691200 = [Label.stale] ∧
    [Label.stale] ≠ [Label.healthy] :=
  ⟨rfl, by decide, by decide⟩

/-- C7 as amended: an empty file yields statistics with every counter 0
and both seen-timestamps null, and classifies as exactly healthy for
every now at most `STALE_DAYS` days after the file's modification
instant (beyond that the staleness rule fires on the mtime fallback,
as the counterexample shows). -/
theorem empty_file_stats (path sid : String) (mtime now : Time)
    (h : now - mtime ≤ (STALE_DAYS : Int) * 86400) :
    (analyze_session path sid 0 mtime []).messages = 0 ∧
    (analyze_session path sid 0 mtime []).userMessages = 0 ∧
    (analyze_session path sid 0 mtime []).assistantMessages = 0 ∧
    (analyze_session path sid 0 mtime []).toolCalls = 0 ∧
    (analyze_session path sid 0 mtime []).compactions = 0 ∧
    (analyze_session path sid 0 mtime []).modelChanges = 0 ∧
    (analyze_session path sid 0 mtime []).errors = 0 ∧
    (analyze_session path sid 0 mtime []).firstTimestamp = none ∧
    (analyze_session path sid 0 mtime []).lastTimestamp = none ∧
    classify_session (analyze_session path sid 0 mtime []) now = [Label.healthy] := by
  have hst : analyze_session path sid 0 mtime [] = initStats path sid 0 mtime := rfl
  have hs : (STALE_DAYS : Int) = 7 := by norm_num [STALE_DAYS]
  have h4 : ¬ (now - mtime > (STALE_DAYS : Int) * 4 * 86400) := by
    rw [hs] at h ⊢
    simp only [Time] at h ⊢
    omega
  have h1 : ¬ (now - mtime > (STALE_DAYS : Int) * 86400) := not_lt.mpr h
  refine ⟨rfl, rfl, rfl, rfl, rfl, rfl, rfl, rfl, rfl, ?_⟩
  rw [hst]
  simp [classify_session, raw_labels, size_labels, msg_labels, stale_labels, last_activity,
    pyOrTime, zombie_labels, compaction_labels, error_labels, initStats,
    BLOAT_SIZE_BYTES, BLOAT_MSG_COUNT, h4, h1]

/-- Witness for C7's amended theorem at mtime = now = 0. -/
theorem empty_file_stats_witness :
    classify_session (analyze_session "p" "s" 0 0 []) 0 = [Label.healthy] :=
  (empty_file_stats "p" "s" 0 0 (by decide)).2.2.2.2.2.2.2.2.2

/-! ### Disk percentiles (C4) -/

/-- Corpus of 10 sessions with distinct sizes used in the percentile
claims. -/
def sizes10 : List Nat := [10, 20, 30, 40, 50, 60, 70, 80, 90, 100]

/-- Counterexample to C4: on 10 distinct sorted sizes the reported median
is the 6th smallest value (index `10 / 2 = 5`), not the nearest-rank 5th
smallest, and the reported p90 is the largest value (index 9), not the
nearest-rank 9th smallest. -/
theorem percentile_not_nearest_rank :
    disk_p50 sizes10 = 60 ∧ nearest_rank 50 sizes10 = 50 ∧ (60 : Nat) ≠ 50 ∧
    disk_p90 sizes10 = 100 ∧ nearest_rank 90 sizes10 = 90 ∧ (100 : Nat) ≠ 90 :=
  ⟨by decide, by decide, by decide, by decide, by decide, by decide⟩

/-- C4 as amended: the percentiles are taken from the ascending-sorted
size list by 0-based floor indexing — p50 at index `N / 2`, p90 at index
`9·N / 10`, p99 at index `99·N / 100` — so for a corpus of 10 sessions
p50 is the 6th smallest size and p90 and p99 are both the largest. -/
theorem percentile_floor_index (sizes : List Nat) (h : sizes.length = 10) :
    disk_p50 sizes = (sorted_sizes sizes).getD 5 0 ∧
    disk_p90 sizes = (sorted_sizes sizes).getD 9 0 ∧
    disk_p99 sizes = (sorted_sizes sizes).getD 9 0 := by
  unfold disk_p50 disk_p90 disk_p99
  rw [h]
  norm_num

/-- Witness for C4's amended theorem at the concrete 10-size corpus. -/
theorem percentile_floor_index_witness :
    sizes10.length = 10 ∧
    (disk_p50 sizes10 = (sorted_sizes sizes10).getD 5 0 ∧
     disk_p90 sizes10 = (sorted_sizes sizes10).getD 9 0 ∧
     disk_p99 sizes10 = (sorted_sizes sizes10).getD 9 0) :=
  ⟨by decide, percentile_floor_index sizes10 (by decide)⟩

/-! ### Trend growth rates (C5) -/

/-- Week index of one session (lines 875-876):
`days_from_start = (created - start).days` (floor division by one day)
followed by `week_num = days_from_start // 7`.  Sessions reaching the
bucketing are window-filtered (line 844: `created >= start_date`), so
the index is non-negative. -/
def weekIdx (start created : Time) : Nat :=
  (Int.fdiv (Int.fdiv (created - start) 86400) 7).toNat

/-- One entry of the `history_data` dict (lines 879-889), restricted to
the figures the growth-rate block reads: the week index behind the
`"Week {n+1}"` key, the number of sessions appended to the bucket, and
its running `total_size`. -/
structure WeekBucket where
  week : Nat
  sessions : Nat
  totalSize : Nat
  deriving DecidableEq

/-- Bucket update for one session (lines 879-889): a bucket is created
lazily at the end of the dict on the first session of its week (Python
dicts preserve insertion order), otherwise the existing bucket's session
count and running size grow. -/
def addSession (bs : List WeekBucket) (w size : Nat) : List WeekBucket :=
  if bs.any (fun b => b.week = w) then
    bs.map (fun b =>
      if b.week = w then { b with sessions := b.sessions + 1, totalSize := b.totalSize + size }
      else b)
  else
    bs ++ [{ week := w, sessions := 1, totalSize := size }]

/-- Bucket construction of lines 873-889: fold the scanned sessions, in
scan order, into the insertion-ordered bucket list.  A session is a
(creation instant, size) pair; the scan order is agents in sorted order
and, within an agent, files by descending size — not chronological. -/
def history_buckets (start : Time) (sessions : List (Time × Nat)) : List WeekBucket :=
  sessions.foldl (fun bs s => addSession bs (weekIdx start s.1) s.2) []

/-- Compound session-count growth of lines 941-949: computed only when
there is more than one bucket, taking `first_week` and `last_week` as
the first and last entries of the dict in insertion order
(`list(history_data.values())[0]` and `[-1]`, lines 942-943), with
`weeks = len(history_data)` and the zero-first-bucket guard. -/
noncomputable def session_compound_rate (bs : List WeekBucket) : ℝ :=
  if 1 < bs.length then
    compound_growth_rate (((bs.head?.map WeekBucket.sessions).getD 0 : ℕ) : ℝ)
      (((bs.getLast?.map WeekBucket.sessions).getD 0 : ℕ) : ℝ) bs.length
  else 0

/-- Compound total-size growth of lines 951-954, computed like
`session_compound_rate` on the buckets' running sizes. -/
noncomputable def size_compound_rate (bs : List WeekBucket) : ℝ :=
  if 1 < bs.length then
    compound_growth_rate (((bs.head?.map WeekBucket.totalSize).getD 0 : ℕ) : ℝ)
      (((bs.getLast?.map WeekBucket.totalSize).getD 0 : ℕ) : ℝ) bs.length
  else 0

/-- Buckets re-sorted into ascending week-index order. -/
def ascending_buckets (bs : List WeekBucket) : List WeekBucket :=
  List.insertionSort (fun a b => a.week ≤ b.week) bs

/-- Modelled from the spec: the spec's clause that the first and last
buckets feeding the compound rate are taken in ascending week-index
order (the source instead takes the first and last dict entries in
insertion order, lines 942-943; this definition exists to be compared
with `session_compound_rate`). -/
noncomputable def spec_ascending_compound_rate (bs : List WeekBucket) : ℝ :=
  session_compound_rate (ascending_buckets bs)

/-- Scanned sessions for the 2-bucket 10 → 20 window: 10 sessions created
in week 0 and 20 in week 1, scanned in chronological order, every file
of size 1. -/
def trend30 : List (Time × Nat) :=
  List.replicate 10 ((0 : Time), 1) ++ List.replicate 20 ((604800 : Time), 1)

/-- Scanned sessions whose first-scanned file (the largest) was created
in week 1, followed by two week-0 sessions: the week-1 bucket is created
first in the dict. -/
def trendSwap : List (Time × Nat) :=
  [((604800 : Time), 3), ((0 : Time), 2), ((0 : Time), 1)]

lemma session_rate_pair (b1 b2 : WeekBucket) :
    session_compound_rate [b1, b2] =
      compound_growth_rate (b1.sessions : ℝ) (b2.sessions : ℝ) 2 := by
  unfold session_compound_rate
  rw [if_pos (by norm_num)]
  rfl

lemma size_rate_pair (b1 b2 : WeekBucket) :
    size_compound_rate [b1, b2] =
      compound_growth_rate (b1.totalSize : ℝ) (b2.totalSize : ℝ) 2 := by
  unfold size_compound_rate
  rw [if_pos (by norm_num)]
  rfl

lemma compound_rate_ratio_two (a b : ℝ) (ha : 0 < a) (hb : b / a = 2) :
    compound_growth_rate a b 2 = (Real.sqrt 2 - 1) * 100 := by
  unfold compound_growth_rate
  rw [if_pos ha, hb]
  have hc : ((2 : ℕ) : ℝ) = 2 := by norm_num
  rw [hc, (Real.sqrt_eq_rpow 2).symm]

lemma compound_rate_ratio_half (a b : ℝ) (ha : 0 < a) (hb : b / a = 1 / 2) :
    compound_growth_rate a b 2 = (Real.sqrt (1 / 2) - 1) * 100 := by
  unfold compound_growth_rate
  rw [if_pos ha, hb]
  have hc : ((2 : ℕ) : ℝ) = 2 := by norm_num
  rw [hc, (Real.sqrt_eq_rpow (1 / 2)).symm]

/-- Counterexample to C5: over the 2-bucket window growing 10 → 20
sessions the week-over-week growth is +100% but the compound rate the
code computes is not +100% (its exponent is `1 / number-of-buckets =
1/2`); and the first and last buckets feeding the rate are not taken in
ascending week-index order — on a scan that meets a week-1 session
first, the code's rate (from the insertion-ordered dict) differs from
the rate computed on the ascending-ordered buckets. -/
theorem compound_rate_claim_counterexample :
    week_over_week_growth 10 20 = 100 ∧
    history_buckets 0 trend30 = [⟨0, 10, 10⟩, ⟨1, 20, 20⟩] ∧
    session_compound_rate (history_buckets 0 trend30) ≠ 100 ∧
    history_buckets 0 trendSwap = [⟨1, 1, 3⟩, ⟨0, 2, 3⟩] ∧
    session_compound_rate (history_buckets 0 trendSwap) ≠
      spec_ascending_compound_rate (history_buckets 0 trendSwap) := by
  have hb30 : history_buckets 0 trend30 = [⟨0, 10, 10⟩, ⟨1, 20, 20⟩] := by decide
  have hbsw : history_buckets 0 trendSwap = [⟨1, 1, 3⟩, ⟨0, 2, 3⟩] := by decide
  have hs30 : session_compound_rate (history_buckets 0 trend30) = (Real.sqrt 2 - 1) * 100 := by
    rw [hb30, session_rate_pair]
    exact compound_rate_ratio_two _ _ (by norm_num) (by norm_num)
  have hssw : session_compound_rate (history_buckets 0 trendSwap) = (Real.sqrt 2 - 1) * 100 := by
    rw [hbsw, session_rate_pair]
    exact compound_rate_ratio_two _ _ (by norm_num) (by norm_num)
  have hasc : ascending_buckets [(⟨1, 1, 3⟩ : WeekBucket), ⟨0, 2, 3⟩] = [⟨0, 2, 3⟩, ⟨1, 1, 3⟩] := by
    decide
  have hspec : spec_ascending_compound_rate (history_buckets 0 trendSwap) =
      (Real.sqrt (1 / 2) - 1) * 100 := by
    rw [hbsw]
    unfold spec_ascending_compound_rate
    rw [hasc, session_rate_pair]
    exact compound_rate_ratio_half _ _ (by norm_num) (by norm_num)
  refine ⟨?_, hb30, ?_, hbsw, ?_⟩
  · unfold week_over_week_growth
    rw [if_pos (by norm_num)]
    norm_num
  · rw [hs30]
    intro hEq
    have h2 : Real.sqrt 2 = 2 := by linarith
    have hsq := Real.sq_sqrt (by norm_num : (0 : ℝ) ≤ 2)
    rw [h2] at hsq
    norm_num at hsq
  · rw [hssw, hspec]
    intro hEq
    have h12 : Real.sqrt 2 = Real.sqrt (1 / 2) := by linarith
    have hsq2 := Real.sq_sqrt (by norm_num : (0 : ℝ) ≤ 2)
    have hsqh := Real.sq_sqrt (by norm_num : (0 : ℝ) ≤ (1 / 2 : ℝ))
    rw [h12, hsqh] at hsq2
    norm_num at hsq2

/-- C5 as amended: the compound weekly growth rate is
`((last / first) ^ (1 / number-of-buckets) - 1) * 100`, computed
independently for session count and total size and reported as 0 when
the first bucket's value is 0, where the first and last buckets are the
first and last dict entries in insertion order — the order in which week
buckets are first encountered during the scan, which agrees with
ascending week-index order only when the scan meets the weeks in
nondecreasing order; over the 2-bucket window 10 → 20 (scanned
chronologically) the week-over-week growth is +100% while both compound
rates are `(√2 - 1) * 100` (about +41.4%), and on a scan meeting a
week-1 session first the week-1 bucket is the "first" bucket. -/
theorem compound_rate_two_bucket_value :
    history_buckets 0 trend30 = [⟨0, 10, 10⟩, ⟨1, 20, 20⟩] ∧
    session_compound_rate (history_buckets 0 trend30) = (Real.sqrt 2 - 1) * 100 ∧
    size_compound_rate (history_buckets 0 trend30) = (Real.sqrt 2 - 1) * 100 ∧
    week_over_week_growth 10 20 = 100 ∧
    compound_growth_rate 0 20 2 = 0 ∧
    history_buckets 0 trendSwap = [⟨1, 1, 3⟩, ⟨0, 2, 3⟩] ∧
    session_compound_rate (history_buckets 0 trendSwap) = (Real.sqrt 2 - 1) * 100 := by
  have hb30 : history_buckets 0 trend30 = [⟨0, 10, 10⟩, ⟨1, 20, 20⟩] := by decide
  have hbsw : history_buckets 0 trendSwap = [⟨1, 1, 3⟩, ⟨0, 2, 3⟩] := by decide
  refine ⟨hb30, ?_, ?_, ?_, ?_, hbsw, ?_⟩
  · rw [hb30, session_rate_pair]
    exact compound_rate_ratio_two _ _ (by norm_num) (by norm_num)
  · rw [hb30, size_rate_pair]
    exact compound_rate_ratio_two _ _ (by norm_num) (by norm_num)
  · unfold week_over_week_growth
    rw [if_pos (by norm_num)]
    norm_num
  · unfold compound_growth_rate
    rw [if_neg (by norm_num)]
  · rw [hbsw, session_rate_pair]
    exact compound_rate_ratio_two _ _ (by norm_num) (by norm_num)

/-! ### Frame effect of a malformed line (C9) -/

lemma stepBlock_set_errors (s : Stats) (x : Nat) (b : Block) :
    stepBlock { s with errors := x } b = { stepBlock s b with errors := x } := by
  cases b <;> rfl

lemma procBlocks_set_errors : ∀ (bs : List Block) (s : Stats) (x : Nat),
    procBlocks { s with errors := x } bs = { procBlocks s bs with errors := x }
  | [], _, _ => rfl
  | b :: bs, s, x => by
    simp only [procBlocks, List.foldl_cons]
    rw [stepBlock_set_errors]
    exact procBlocks_set_errors bs (stepBlock s b) x

lemma updateTimes_set_errors (s : Stats) (x : Nat) (ts : Option Time) :
    updateTimes { s with errors := x } ts = { updateTimes s ts with errors := x } := by
  cases ts <;> rfl

lemma applyMessage_set_errors (s : Stats) (x : Nat) (m : Msg) :
    applyMessage { s with errors := x } m = { applyMessage s m with errors := x } := by
  simp only [applyMessage]
  split_ifs
  · rfl
  · exact procBlocks_set_errors m.content
      { s with messages := s.messages + 1,
               assistantMessages := s.assistantMessages + 1 } x
  · rfl
  · rfl

lemma applyEvent_set_errors (s : Stats) (x : Nat) (e : Entry) :
    applyEvent { s with errors := x } e = { applyEvent s e with errors := x } := by
  simp only [applyEvent]
  rw [updateTimes_set_errors]
  generalize updateTimes s (tsOf e.timestamp) = u
  split_ifs
  · rfl
  · exact applyMessage_set_errors u x _
  · rfl
  · rcases pyOrStr e.modelId e.model with _ | m
    · rfl
    · by_cases hm : m = "" <;> simp only [hm] <;> rfl
  · rcases e.dataModelId with _ | m
    · rfl
    · by_cases hm : m = "" <;> simp only [hm] <;> rfl
  · rfl
  · rfl

lemma applyEvent_errors (s : Stats) (e : Entry) : (applyEvent s e).errors = s.errors :=
  calc (applyEvent s e).errors
      = (applyEvent { s with errors := s.errors } e).errors := rfl
    _ = ({ applyEvent s e with errors := s.errors }).errors := by rw [applyEvent_set_errors]
    _ = s.errors := rfl

lemma stepLine_errors_offset (s : Stats) (d : Nat) (l : LineContent) :
    stepLine { s with errors := s.errors + d } l =
      { stepLine s l with errors := (stepLine s l).errors + d } := by
  cases l with
  | blank => rfl
  | invalid =>
    cases s
    simp only [stepLine, decodeLine]
    simp only [Stats.mk.injEq, and_true, true_and]
    omega
  | entry e =>
    show applyEvent { s with errors := s.errors + d } e = _
    rw [applyEvent_set_errors]
    have he : (stepLine s (.entry e)).errors = s.errors := applyEvent_errors s e
    show ({ applyEvent s e with errors := s.errors + d } : Stats) = _
    rw [show (stepLine s (.entry e)) = applyEvent s e from rfl] at he ⊢
    rw [he]

lemma foldl_step_errors_offset : ∀ (ls : List LineContent) (s : Stats) (d : Nat),
    List.foldl stepLine { s with errors := s.errors + d } ls =
      { List.foldl stepLine s ls with errors := (List.foldl stepLine s ls).errors + d }
  | [], _, _ => rfl
  | l :: ls, s, d => by
    simp only [List.foldl_cons]
    rw [stepLine_errors_offset]
    exact foldl_step_errors_offset ls (stepLine s l) d

/-- C9: a line that fails JSON decoding increments only the parse-error
counter — the statistics accumulated from any file containing one
malformed line among arbitrary other lines are exactly the statistics of
the same file without that line, with the error counter one higher (all
other counters, the collections, the seen timestamps and the identity
and metadata fields unchanged). -/
theorem invalid_line_frame_effect (path sid : String) (sz : Nat) (mt : Time)
    (xs ys : List LineContent) :
    analyze_session path sid sz mt (xs ++ LineContent.invalid :: ys) =
      { analyze_session path sid sz mt (xs ++ ys) with
        errors := (analyze_session path sid sz mt (xs ++ ys)).errors + 1 } := by
  unfold analyze_session
  rw [List.foldl_append, List.foldl_append, List.foldl_cons]
  have hinv : stepLine (List.foldl stepLine (initStats path sid sz mt) xs) .invalid =
      { List.foldl stepLine (initStats path sid sz mt) xs with
        errors := (List.foldl stepLine (initStats path sid sz mt) xs).errors + 1 } := rfl
  rw [hinv]
  exact foldl_step_errors_offset ys (List.foldl stepLine (initStats path sid sz mt) xs) 1

/-! ### Per-agent issue ranking (C8) -/

lemma filter_orderedInsert_neg (p : Stats → Bool) (x : Stats) (hx : p x = false)
    (l : List Stats) :
    (List.orderedInsert sizeGe x l).filter p = l.filter p := by
  induction l with
  | nil => simp [hx]
  | cons y l ih =>
    simp only [List.orderedInsert]
    by_cases h : sizeGe x y
    · rw [if_pos h, List.filter_cons, List.filter_cons]
      simp [hx]
    · rw [if_neg h, List.filter_cons, ih, List.filter_cons]

lemma filter_orderedInsert_pos (p : Stats → Bool) (x : Stats) (hx : p x = true)
    (hrel : ∀ y, p y = true → sizeGe x y) (l : List Stats) :
    (List.orderedInsert sizeGe x l).filter p = x :: l.filter p := by
  induction l with
  | nil => simp [hx]
  | cons y l ih =>
    simp only [List.orderedInsert]
    by_cases h : sizeGe x y
    · rw [if_pos h, List.filter_cons, List.filter_cons]
      simp [hx]
    · rw [if_neg h, List.filter_cons]
      have hy : p y = false := by
        rcases hpy : p y with _ | _
        · rfl
        · exact absurd (hrel y hpy) h
      rw [hy, List.filter_cons, hy]
      simp only [Bool.false_eq_true, if_false]
      exact ih

lemma filter_insertionSort (p : Stats → Bool)
    (hrel : ∀ x y, p x = true → p y = true → sizeGe x y) (l : List Stats) :
    (List.insertionSort sizeGe l).filter p = l.filter p := by
  induction l with
  | nil => rfl
  | cons a l ih =>
    simp only [List.insertionSort]
    rcases ha : p a with _ | _
    · rw [filter_orderedInsert_neg p a ha, ih, List.filter_cons, ha]
      simp only [Bool.false_eq_true, if_false]
    · rw [filter_orderedInsert_pos p a ha (fun y hy => hrel a y ha hy), ih,
        List.filter_cons, ha]
      simp only [if_true]

/-- Two sessions with equal sizes and distinct paths, both bloated (and
hence carrying an issue), used to exhibit the tie behaviour of the
ranking. -/
def sessA : Stats := { path := "a.jsonl", sessionId := "a", sizeBytes := 2000000, mtime := 0 }

/-- Companion session to `sessA` with the same size and a later path. -/
def sessB : Stats := { path := "b.jsonl", sessionId := "b", sizeBytes := 2000000, mtime := 0 }

/-- Counterexample to C8: two equal-size sessions with issues keep the
order in which the directory enumeration produced them — enumerating
`b.jsonl` before `a.jsonl` ranks `b.jsonl` first, while enumerating in
the opposite order ranks `a.jsonl` first.  Equal-size ties are therefore
not ordered by file path, and the ranking is not a function of the
(path, size) pairs alone. -/
theorem issue_ranking_tie_not_path_order :
    (rank_issues 0 [sessB, sessA]).map Stats.path = ["b.jsonl", "a.jsonl"] ∧
    (rank_issues 0 [sessA, sessB]).map Stats.path = ["a.jsonl", "b.jsonl"] ∧
    sessA.sizeBytes = sessB.sizeBytes ∧ sessA.path ≠ sessB.path ∧
    (["b.jsonl", "a.jsonl"] : List String) ≠ ["a.jsonl", "b.jsonl"] :=
  ⟨by decide, by decide, by decide, by decide, by decide⟩

/-- C8 as amended: within an agent the sessions carrying at least one
non-healthy label are ranked by descending file size, and sessions of
equal size retain the relative order in which the directory enumeration
produced them (Python's sorts are stable); the ranking is a
deterministic function of the enumerated session sequence, but not of
the set of (path, size) pairs alone. -/
theorem issue_ranking_sorted_stable (now : Time) (files : List Stats) :
    List.Sorted sizeGe (rank_issues now files) ∧
    ∀ k : Nat, (rank_issues now files).filter (fun s => decide (s.sizeBytes = k)) =
      files.filter (fun s => has_issue now s && decide (s.sizeBytes = k)) := by
  constructor
  · exact List.sorted_insertionSort sizeGe _
  · intro k
    unfold rank_issues scan_order
    rw [filter_insertionSort (fun s => decide (s.sizeBytes = k))
      (fun x y hx hy => by
        unfold sizeGe
        rw [of_decide_eq_true hx, of_decide_eq_true hy])]
    rw [List.filter_filter]
    rw [filter_insertionSort (fun s => decide (s.sizeBytes = k) && has_issue now s)
      (fun x y hx hy => by
        unfold sizeGe
        rw [of_decide_eq_true (Bool.and_elim_left hx),
          of_decide_eq_true (Bool.and_elim_left hy)])]
    exact List.filter_congr (fun s _ => Bool.and_comm _ _)
